import Mathlib

/-!
Verification of the pymif MIF/MID parser (src/pymif.py) against its
specification.  The Python code is shallowly embedded: strings become
`List Char`, fallible operations return `Except PyErr`, and every loop of
the source is translated as a structurally recursive function so that all
definitions evaluate by kernel reduction.
-/

set_option maxHeartbeats 1000000

namespace Pymif

/-- Characters of a string literal; used to state concrete examples. -/
def cs (s : String) : List Char := s.data

/-- Python 2 `str.lower()`: ASCII lowercasing applied characterwise. -/
def pyLower (s : List Char) : List Char := s.map Char.toLower

/-- The whitespace characters stripped by Python `int(...)`. -/
def isPySpace (c : Char) : Bool :=
  c == ' ' || c == '\t' || c == '\n' || c == '\r' || c == '\x0b' || c == '\x0c'

/-- Strip leading and trailing Python whitespace. -/
def pyStrip (s : List Char) : List Char :=
  ((s.dropWhile isPySpace).reverse.dropWhile isPySpace).reverse

/-- Value of a nonempty all-digit character list. -/
def digitsVal (ds : List Char) : Option Nat :=
  if ds ≠ [] ∧ ds.all Char.isDigit then
    some (ds.foldl (fun acc c => 10 * acc + (c.toNat - 48)) 0)
  else Option.none

/-- Python 2 `int(string)`: strip whitespace, optional sign, digits. -/
def pyInt? (s : List Char) : Option Int :=
  match pyStrip s with
  | '-' :: ds => (digitsVal ds).map (fun n => -(n : Int))
  | '+' :: ds => (digitsVal ds).map (fun n => (n : Int))
  | ds => (digitsVal ds).map (fun n => (n : Int))

/-- Exceptions the embedded Python code can raise. `fuelOut` is an artifact
of the fuel-indexed embedding of the (index-bounded) recursion in
`__parseCollection`; with fuel larger than the recursion depth it never
occurs. -/
inductive PyErr where
  | indexError : PyErr
  | valueError : List Char → PyErr
  | fuelOut : PyErr
deriving DecidableEq

/-- Python sequence indexing `xs[i]` for the nonnegative indices used by the
parser: raises `IndexError` when out of range. -/
def pyGet {α : Type} (xs : List α) (i : Nat) : Except PyErr α :=
  if h : i < xs.length then Except.ok (xs.get ⟨i, h⟩) else Except.error PyErr.indexError

/-- Python `int(...)` raising `ValueError` on unparsable input. -/
def pyIntE (s : List Char) : Except PyErr Int :=
  match pyInt? s with
  | some v => Except.ok v
  | Option.none => Except.error (PyErr.valueError (cs "invalid literal for int"))

/-- Auxiliary loop for Python `str.split(sep)` (nonempty `sep`); the fuel is
at least the number of characters, and one character is consumed per step. -/
def pySplitAux (sep : List Char) : Nat → List Char → List Char → List (List Char)
  | _, [], cur => [cur.reverse]
  | 0, s, cur => [cur.reverse ++ s]
  | n + 1, c :: rest, cur =>
    if sep.isPrefixOf (c :: rest) then
      cur.reverse :: pySplitAux sep n (List.drop sep.length (c :: rest)) []
    else
      pySplitAux sep n rest (c :: cur)

/-- Python `s.split(sep)` for a nonempty separator `sep`. -/
def pySplit (sep s : List Char) : List (List Char) := pySplitAux sep (s.length + 1) s []

/-- Python `s.replace(t, u)` is only used as `replace('\t', '')`. -/
def detab (s : List Char) : List Char := s.filter (fun c => c != '\t')

/-! ### Line store (`Mif.__init__`, src/pymif.py lines 52-60) -/

/-- Python `text.split('\n')`. -/
def splitNl : List Char → List (List Char)
  | [] => [[]]
  | c :: rest =>
    match splitNl rest with
    | [] => [[]]
    | h :: t => if c = '\n' then [] :: h :: t else (c :: h) :: t

/-- The deletion loop of `Mif.__init__`:
`for l in xrange(len(self.lines)): if l >= len(self.lines): break;
 if not self.lines[l]: del self.lines[l]`.
The fuel is the length of the freshly split list (the `xrange` bound is
evaluated once), `l` the running index, and the list is mutated in place by
`eraseIdx` while `l` still advances. -/
def delBlankLoop : Nat → Nat → List (List Char) → List (List Char)
  | 0, _, ls => ls
  | fuel + 1, l, ls =>
    if l < ls.length then
      if ls.getD l [] = [] then delBlankLoop fuel (l + 1) (ls.eraseIdx l)
      else delBlankLoop fuel (l + 1) ls
    else ls

/-- The line store built by `Mif.__init__` from the raw file text. -/
def mifLines (text : List Char) : List (List Char) :=
  delBlankLoop (splitNl text).length 0 (splitNl text)

/-! ### Header index (`Mif.getLineStarted`, src/pymif.py lines 161-187) -/

/-- One entry of the list returned by `getLineStarted`. -/
structure HeaderMatch where
  line_num : Nat
  attrs : List Char
  line_text : List Char
deriving DecidableEq

/-- `if attrs and attrs[0] == ' ': attrs = attrs[1:]`. -/
def stripLeadSpace : List Char → List Char
  | ' ' :: rest => rest
  | l => l

/-- `Mif.getLineStarted(string)`: every line whose first `len(string)`
characters, lowercased, equal the lowercased `string`; the remainder of the
line, with one leading space stripped, becomes `attrs`. -/
def getLineStarted (lines : List (List Char)) (s : List Char) : List HeaderMatch :=
  (List.range lines.length).filterMap (fun i =>
    let line := lines.getD i []
    if pyLower (line.take s.length) = pyLower s then
      some { line_num := i, attrs := stripLeadSpace (line.drop s.length), line_text := line }
    else Option.none)

/-! ### `Mif.getDelimiter` (src/pymif.py lines 145-159) -/

/-- The two quote characters of `['\'', '\"']` in the source. -/
def quoteChars : List Char := [Char.ofNat 39, Char.ofNat 34]

/-- `Mif.getDelimiter()`: attrs of the first DELIMITER match, with one layer
of matching surrounding quotes stripped; tab when the header is absent.
Python evaluates `delimiter[0]` before `delimiter[-1]`, so empty attrs raise
`IndexError` at the first subscript. -/
def getDelimiter (lines : List (List Char)) : Except PyErr (List Char) :=
  match getLineStarted lines (cs "DELIMITER") with
  | [] => Except.ok ['\t']
  | m :: _ => do
    let d := m.attrs
    let c0 ← pyGet d 0
    let cl ← pyGet d (d.length - 1)
    if c0 = cl ∧ c0 ∈ quoteChars then
      pure (d.tail.dropLast)
    else
      pure d

/-! ### `Mif.getColumns` (src/pymif.py lines 75-101) -/

structure Column where
  name : List Char
  type : List Char
deriving DecidableEq

/-- The body of the `for i in range(start, finish)` loop of `getColumns`:
`line = self.lines[i]` has already been fetched; strip one leading tab or
space, delete every tab, split on single spaces, drop one leading
empty-or-blank token, take the first token as the name and join the rest
with no separator as the type. Subscripting an empty line or an empty token
list raises `IndexError`, exactly as in Python. -/
def colLine (line : List Char) : Except PyErr Column := do
  let c0 ← pyGet line 0
  let line1 := if c0 = '\t' ∨ c0 = ' ' then line.tail else line
  let parts := pySplit [' '] (detab line1)
  let p0 ← pyGet parts 0
  let parts1 := if p0 = ['\t'] ∨ p0 = [' '] ∨ p0 = [] then parts.tail else parts
  let nm ← pyGet parts1 0
  pure { name := nm, type := (parts1.drop 1).flatten }

/-- The `for i in range(i, i + k)` iteration of `getColumns`, fetching
`self.lines[i]` (possible `IndexError`) and processing it with `colLine`. -/
def colLoop (lines : List (List Char)) : Nat → Nat → Except PyErr (List Column)
  | _, 0 => Except.ok []
  | i, k + 1 => do
    let line ← pyGet lines i
    let col ← colLine line
    let rest ← colLoop lines (i + 1) k
    pure (col :: rest)

/-- `Mif.getColumns()`: first COLUMNS match supplies the declared count; the
following `count` lines are processed by `colLine`. -/
def getColumns (lines : List (List Char)) : Except PyErr (List Column) :=
  match getLineStarted lines (cs "COLUMNS") with
  | [] => Except.ok []
  | m :: _ => do
    let n ← pyIntE m.attrs
    colLoop lines (m.line_num + 1) n.toNat

/-! ### Geometry decoders (src/pymif.py lines 241-343)

A coordinate line is kept as its raw token list (`replace('\t','').split(' ')`),
exactly as the source returns it. `Geom.null` is the Python `None` that
`__parseRegion` returns on a failed ring-count scan; `Geom.noneG` is the
`{"type": "None", "geom": None}` record of `__parseNone`. -/

inductive Geom where
  | point : List (List Char) → Geom
  | line : List (List (List Char)) → Geom
  | pline : List (List (List (List Char))) → Geom
  | region : List (List (List (List Char))) → Int → Geom
  | arc : Geom
  | text : Geom
  | rect : Geom
  | roundrect : Geom
  | ellipse : Geom
  | multipoint : List (List (List Char)) → Geom
  | collection : List Geom → Geom
  | noneG : Geom
  | null : Geom

/-- `self.lines[line].lower().replace('\t', '').split(' ')` — the token list
of a geometry entry line. -/
def entryTokens (lines : List (List Char)) (line : Nat) : Except PyErr (List (List Char)) := do
  let l ← pyGet lines line
  pure (pySplit [' '] (detab (pyLower l)))

/-- `__parsePoint`. -/
def parsePoint (lines : List (List Char)) (line : Nat) : Except PyErr Geom := do
  let toks ← entryTokens lines line
  pure (Geom.point (toks.drop 1))

/-- `__parseLine`: slices `[1:3]` and `[3:5]` of the token list. -/
def parseLine (lines : List (List Char)) (line : Nat) : Except PyErr Geom := do
  let toks ← entryTokens lines line
  pure (Geom.line [(toks.drop 1).take 2, (toks.drop 3).take 2])

/-- `self.lines[l].replace('\t', '').split(' ')` for a coordinate line. -/
def coordLine (l : List Char) : List (List Char) := pySplit [' '] (detab l)

/-- `for l in range(cursor, cursor + k): self.lines[l]...` — consume `k`
coordinate lines starting at `cursor`; `IndexError` past end of store. The
recursion walks the suffix `lines.drop cursor`. -/
def consumeCoordsL : Nat → List (List Char) → Except PyErr (List (List (List Char)))
  | 0, _ => Except.ok []
  | _ + 1, [] => Except.error PyErr.indexError
  | k + 1, l :: rest => do
    let pts ← consumeCoordsL k rest
    pure (coordLine l :: pts)

def consumeCoords (lines : List (List Char)) (cursor k : Nat) : Except PyErr (List (List (List Char))) :=
  consumeCoordsL k (lines.drop cursor)

/-- `__parsePline`. -/
def parsePline (lines : List (List Char)) (line : Nat) : Except PyErr Geom := do
  let toks ← entryTokens lines line
  let geomLen ← if 1 < toks.length ∧ toks.getD 1 [] ≠ [] then pyIntE (toks.getD 1 []) else pure 2
  let pts ← consumeCoords lines (line + 1) geomLen.toNat
  pure (Geom.pline [pts])

/-- `__parseMultipoint`. -/
def parseMultipoint (lines : List (List Char)) (line : Nat) : Except PyErr Geom := do
  let toks ← entryTokens lines line
  let t1 ← pyGet toks 1
  let pc ← pyIntE t1
  let pts ← consumeCoords lines (line + 1) pc.toNat
  pure (Geom.multipoint pts)

/-- The ring-count scan of `__parseRegion`:
`for l in range(cursor, len(self.lines)): try: reg_len = int(self.lines[l])`
— first line at or after `cursor` parsing as a bare integer, with its index.
The recursion walks the suffix `lines.drop cursor`. -/
def regionScanL : List (List Char) → Nat → Option (Nat × Int)
  | [], _ => Option.none
  | l :: rest, i =>
    match pyInt? l with
    | some k => some (i, k)
    | Option.none => regionScanL rest (i + 1)

def regionScan (lines : List (List Char)) (cursor : Nat) : Option (Nat × Int) :=
  regionScanL (lines.drop cursor) cursor

/-- The `for _ in xrange(reg_count)` loop of `__parseRegion`. `regLen` is the
`reg_len` variable (initially `None`, kept stale when a scan fails), `cursor`
is the `line` variable. After a successful scan `line = l + 1`; the
coordinate consumption does NOT advance `line` (the inner `l` is local), so
the next scan starts at the first coordinate line of the ring just read.
`if not reg_len: return None` fires on `None` or `0`. -/
def regionLoop (lines : List (List Char)) :
    Nat → Option Int → Nat → List (List (List (List Char))) →
    Except PyErr (Option (List (List (List (List Char)))))
  | 0, _, _, acc => Except.ok (some acc.reverse)
  | n + 1, regLen, cursor, acc =>
    let s := regionScan lines cursor
    let regLen1 := match s with | some (_, k) => some k | Option.none => regLen
    let cursor1 := match s with | some (l, _) => l + 1 | Option.none => cursor
    if regLen1 = Option.none ∨ regLen1 = some 0 then Except.ok Option.none
    else do
      let ring ← consumeCoords lines cursor1 ((regLen1.getD 0).toNat)
      regionLoop lines n regLen1 cursor1 (ring :: acc)

/-- `__parseRegion`: ring count from token 1 of the entry line, then
`reg_count` iterations of `regionLoop` starting with the cursor at the entry
line itself. A `None` from the loop is the Python `return None`. -/
def parseRegion (lines : List (List Char)) (line : Nat) : Except PyErr Geom := do
  let toks ← entryTokens lines line
  let t1 ← pyGet toks 1
  let rc ← pyIntE t1
  let rings? ← regionLoop lines rc.toNat Option.none line []
  match rings? with
  | Option.none => pure Geom.null
  | some rings => pure (Geom.region rings rc)

/-- Modelled from the spec wording of Region decoding (§4.4): identical to
`regionLoop` except that after consuming a ring of `k` coordinate lines the
cursor is advanced PAST them, so the next ring-count scan starts after the
consumed coordinates. Used only to compare the source behaviour with the
claimed one. -/
def regionLoopAdvance (lines : List (List Char)) :
    Nat → Option Int → Nat → List (List (List (List Char))) →
    Except PyErr (Option (List (List (List (List Char)))))
  | 0, _, _, acc => Except.ok (some acc.reverse)
  | n + 1, regLen, cursor, acc =>
    let s := regionScan lines cursor
    let regLen1 := match s with | some (_, k) => some k | Option.none => regLen
    let cursor1 := match s with | some (l, _) => l + 1 | Option.none => cursor
    if regLen1 = Option.none ∨ regLen1 = some 0 then Except.ok Option.none
    else do
      let ring ← consumeCoords lines cursor1 ((regLen1.getD 0).toNat)
      regionLoopAdvance lines n regLen1 (cursor1 + (regLen1.getD 0).toNat) (ring :: acc)

/-- Modelled from the spec wording: `parseRegion` with the advanced cursor of
`regionLoopAdvance`. -/
def parseRegionAdvance (lines : List (List Char)) (line : Nat) : Except PyErr Geom := do
  let toks ← entryTokens lines line
  let t1 ← pyGet toks 1
  let rc ← pyIntE t1
  let rings? ← regionLoopAdvance lines rc.toNat Option.none line []
  match rings? with
  | Option.none => pure Geom.null
  | some rings => pure (Geom.region rings rc)

/-- The keyword tuple of `__parseCollection` (line 311) — note: no `none`. -/
def types11 : List (List Char) :=
  [cs "point", cs "line", cs "pline", cs "region", cs "arc", cs "text",
   cs "rect", cs "roundrect", cs "ellipse", cs "multipoint", cs "collection"]

/-- The member scan of `__parseCollection`:
`for l in range(line, len(self.lines)): ... if startswith: append;
 if len(collection_arr) >= collection_len: break`.
The length test runs every iteration, after a possible append. The fuel is
the number of remaining lines. -/
def collScan (lines : List (List Char)) (clen : Int) : List Nat → Nat → Nat → List Nat
  | acc, _, 0 => acc.reverse
  | acc, l, n + 1 =>
    let ls := detab (pyLower (lines.getD l []))
    let acc1 := if types11.any (fun t => t.isPrefixOf ls) then l :: acc else acc
    if clen ≤ (acc1.length : Int) then acc1.reverse
    else collScan lines clen acc1 (l + 1) n

/-- The parser dispatch of `__parseCollection` (lines 318-339), abstracted
over the recursive collection parser `pc`. An unknown token raises — the
source formats `"Uknown data format %s at line %s" % (line[0], l)` where
`line` is an `int`, so the `except` clause itself raises a `TypeError`;
the embedding keeps a single error value for that dead branch. -/
def dispatchWith (pc : Nat → Except PyErr Geom) (lines : List (List Char))
    (tok : List Char) (obj : Nat) : Except PyErr Geom :=
  if tok = cs "point" then parsePoint lines obj
  else if tok = cs "line" then parseLine lines obj
  else if tok = cs "pline" then parsePline lines obj
  else if tok = cs "region" then parseRegion lines obj
  else if tok = cs "arc" then Except.ok Geom.arc
  else if tok = cs "text" then Except.ok Geom.text
  else if tok = cs "rect" then Except.ok Geom.rect
  else if tok = cs "roundrect" then Except.ok Geom.roundrect
  else if tok = cs "ellipse" then Except.ok Geom.ellipse
  else if tok = cs "multipoint" then parseMultipoint lines obj
  else if tok = cs "collection" then pc obj
  else if tok = cs "none" then Except.ok Geom.noneG
  else Except.error (PyErr.valueError (cs "Uknown data format"))

/-- `__parseCollection`, fuel-indexed for the recursion through nested
collections (each nested entry point has a strictly larger index, so fuel
`lines.length` always suffices). Token 1 of the entry line is the declared
member count; members are the indices collected by `collScan` starting at
`line + 1`, each dispatched on the first token of its (lowercased,
tab-stripped) line. -/
def parseCollectionF (lines : List (List Char)) : Nat → Nat → Except PyErr Geom
  | 0, _ => Except.error PyErr.fuelOut
  | fuel + 1, line => do
    let toks ← entryTokens lines line
    let t1 ← pyGet toks 1
    let clen ← pyIntE t1
    let start := line + 1
    let arr := collScan lines clen [] start (lines.length - start)
    let mems ← arr.mapM (fun obj => do
      let lo ← pyGet lines obj
      let tok := (pySplit [' '] (detab (pyLower lo))).getD 0 []
      dispatchWith (fun o => parseCollectionF lines fuel o) lines tok obj)
    pure (Geom.collection mems)

/-- `int(...)` of token 1 of the (lowercased, tab-stripped, space-split)
entry line: the declared count of a Region/Multipoint/Collection entry. -/
def declaredCount (lines : List (List Char)) (line : Nat) : Option Int :=
  pyInt? ((pySplit [' '] (detab (pyLower (lines.getD line [])))).getD 1 [])

/-! ### `Mid.data` (src/pymif.py lines 357-377)

`Mid.data` first resolves the column definitions (descriptions if present,
else columns) and the delimiter (lines 358-360); the loop of lines 362-377
only uses the resolved field-key list and delimiter, so the embedding takes
them as arguments. -/

structure MidPair where
  name : List Char
  value : List Char
deriving DecidableEq

structure MidData where
  count : Nat
  info : List (List MidPair)
deriving DecidableEq

/-- The `for i in xrange(len(els))` loop of `Mid.data`: pairs
`columns[i % len(els)]` (possible `IndexError` in soft mode) with `els[i]`. -/
def pairLoop (colKeys els : List (List Char)) : Nat → Nat → Except PyErr (List MidPair)
  | _, 0 => Except.ok []
  | i, n + 1 => do
    let attr ← pyGet colKeys (i % els.length)
    let rest ← pairLoop colKeys els (i + 1) n
    pure ({ name := attr, value := els.getD i [] } :: rest)

/-- The body of `Mid.data`'s line loop for one non-blank line: strip one
trailing tab (`if line[-1] == '\t'`), split on the delimiter (Python raises
`ValueError` on an empty separator), raise on a strict-mode length mismatch,
then pair positionally with `pairLoop`. -/
def midLineProc (colKeys : List (List Char)) (delim : List Char) (soft : Bool)
    (line : List Char) : Except PyErr (List MidPair) := do
  let line1 := if line.getLast? = some '\t' then line.dropLast else line
  if delim = [] then
    Except.error (PyErr.valueError (cs "empty separator"))
  else
    let els := pySplit delim line1
    if els.length ≠ colKeys.length ∧ soft = false then
      Except.error (PyErr.valueError (cs "columns length is not equal to mid file data"))
    else
      pairLoop colKeys els 0 els.length

/-- The `for line in self.lines` loop of `Mid.data`: blank lines skipped,
each other line processed by `midLineProc`, results collected in order. -/
def midLoop (colKeys : List (List Char)) (delim : List Char) (soft : Bool) :
    List (List Char) → Except PyErr (List (List MidPair))
  | [] => Except.ok []
  | line :: rest =>
    if line = [] then midLoop colKeys delim soft rest
    else do
      let pairs ← midLineProc colKeys delim soft line
      let restInfos ← midLoop colKeys delim soft rest
      pure (pairs :: restInfos)

/-- `Mid.data(soft)` over the resolved field keys and delimiter:
`data['count'] = len(data['info'])`. -/
def Mid.data (midLines : List (List Char)) (colKeys : List (List Char))
    (delim : List Char) (soft : Bool) : Except PyErr MidData := do
  let infos ← midLoop colKeys delim soft midLines
  pure { count := infos.length, info := infos }

/-- Amended per-line description of strict-mode `Mid.data`: one trailing TAB
(not the delimiter) stripped, split on the delimiter, fail on length
mismatch, else pair column `i` with split position `i`. -/
def strictLineSpec (colKeys : List (List Char)) (delim : List Char)
    (line : List Char) : Except PyErr (List MidPair) :=
  let line1 := if line.getLast? = some '\t' then line.dropLast else line
  if delim = [] then
    Except.error (PyErr.valueError (cs "empty separator"))
  else
    let els := pySplit delim line1
    if els.length = colKeys.length then
      Except.ok (List.zipWith (fun a v => { name := a, value := v }) colKeys els)
    else
      Except.error (PyErr.valueError (cs "columns length is not equal to mid file data"))

/-- Modelled from the spec wording of the Attribute Joiner (§4.5, claim C8):
strip a single trailing occurrence of the DELIMITER if present, split on the
delimiter, strict-mode failure on length mismatch, positional pairing. -/
def claimLineSpec (colKeys : List (List Char)) (delim : List Char)
    (line : List Char) : Except PyErr (List MidPair) :=
  let line1 := if delim ≠ [] ∧ delim.isSuffixOf line then line.take (line.length - delim.length) else line
  if delim = [] then
    Except.error (PyErr.valueError (cs "empty separator"))
  else
    let els := pySplit delim line1
    if els.length = colKeys.length then
      Except.ok (List.zipWith (fun a v => { name := a, value := v }) colKeys els)
    else
      Except.error (PyErr.valueError (cs "columns length is not equal to mid file data"))

/-- Modelled from the spec wording: strict-mode `Mid.data` as claim C8 states
it, built over `claimLineSpec`. -/
def midDataClaim (midLines : List (List Char)) (colKeys : List (List Char))
    (delim : List Char) : Except PyErr MidData :=
  ((midLines.filter (fun l => !l.isEmpty)).mapM (claimLineSpec colKeys delim)).map
    (fun infos => { count := infos.length, info := infos })

/-! ### `CoordSys.__init__` (src/pymif.py lines 392-416) -/

structure CoordInfo where
  epsg : Int
  name : List Char
deriving DecidableEq

/-- The `self.projs` dictionary of `CoordSys.__loadProjs`. -/
def projs : List (List Char × CoordInfo) :=
  [(cs "Earth Projection 1, 104", { epsg := 4326, name := cs "WGS84 / Long/Lat" }),
   (cs "Earth 1, 104", { epsg := 4326, name := cs "WGS84" }),
   (cs "Earth Projection 8, 104, \"m\", 97.03333333333, 0, 1, 1250000, -5411057.63",
     { epsg := 911001, name := cs "MSK-38 - zone 1" }),
   (cs "Earth Projection 8, 104, \"m\", 100.03333333333, 0, 1, 2250000, -5411057.63",
     { epsg := 911002, name := cs "MSK-38 - zone 2" }),
   (cs "Earth Projection 8, 104, \"m\", 103.03333333333, 0, 1, 3250000, -5411057.63",
     { epsg := 911003, name := cs "MSK-38 - zone 3" }),
   (cs "Earth Projection 8, 104, \"m\", 106.03333333333, 0, 1, 4250000, -5411057.63",
     { epsg := 911004, name := cs "MSK-38 - zone 4" }),
   (cs "Earth Projection 8, 104, \"m\", 109.03333333333, 0, 1, 5250000, -5411057.63",
     { epsg := 911005, name := cs "MSK-38 - zone 5" }),
   (cs "Earth Projection 8, 104, \"m\", 112.03333333333, 0, 1, 6250000, -5411057.63",
     { epsg := 911006, name := cs "MSK-38 - zone 6" }),
   (cs "Earth Projection 8, 104, \"m\", 115.03333333333, 0, 1, 7250000, -5411057.63",
     { epsg := 911007, name := cs "MSK-38 - zone 7" }),
   (cs "Earth Projection 8, 104, \"m\", 118.03333333333, 0, 1, 8250000, -5411057.63",
     { epsg := 911008, name := cs "MSK-38 - zone 8" })]

/-- `CoordSys.__init__(coordSys)`: exact dictionary lookup; on a miss the
source prints the string to stdout (a side effect, not part of the raised
value) and raises `ValueError("Uknown coordsys")` — a constant message that
does not contain the input. -/
def CoordSys.init (coordSys : List Char) : Except PyErr CoordInfo :=
  match projs.lookup coordSys with
  | some info => Except.ok info
  | Option.none => Except.error (PyErr.valueError (cs "Uknown coordsys"))

/-! ### Supporting instances and lemmas -/

instance {ε α : Type} [DecidableEq ε] [DecidableEq α] : DecidableEq (Except ε α) := fun x y =>
  match x, y with
  | Except.ok a, Except.ok b =>
    if h : a = b then isTrue (by rw [h]) else isFalse (fun hc => h (Except.ok.inj hc))
  | Except.error a, Except.error b =>
    if h : a = b then isTrue (by rw [h]) else isFalse (fun hc => h (Except.error.inj hc))
  | Except.ok _, Except.error _ => isFalse (fun hc => Except.noConfusion hc)
  | Except.error _, Except.ok _ => isFalse (fun hc => Except.noConfusion hc)

/-! ### Claim theorems -/

/-- Claim C2 (code bug): the spec requires the constructed line store to be
free of zero-length lines even for consecutive blanks, but the deletion loop
of `Mif.__init__` advances its index after an in-place `del`, skipping the
element that shifted into the deleted slot: on `"a\n\n\nb"` the second of
the two consecutive blank lines survives in the store. -/
theorem C2_blank_filter_leaves_empty_line :
    mifLines (cs "a\n\n\nb") = [cs "a", [], cs "b"] := by decide

/-- Claim C4 (code bug): when no line parses as a bare integer between the
cursor and end-of-file, `__parseRegion` does not fail with a
`TruncatedGeometry` error as the spec requires — it returns Python `None`
(an absent geometry): here for entry `REGION 1` followed only by a
non-integer coordinate line. -/
theorem C4_region_truncation_returns_null :
    parseRegion [cs "REGION 1", cs "x y"] 0 = Except.ok Geom.null := rfl

/-- Claim C10: if the first DELIMITER header match has empty attrs (e.g. the
line is exactly "DELIMITER"), `getDelimiter` neither returns the default tab
nor an empty string: it raises `IndexError` at `delimiter[0]`. -/
theorem C10_delimiter_empty_attrs_index_error (lines : List (List Char))
    (m : HeaderMatch) (rest : List HeaderMatch)
    (hm : getLineStarted lines (cs "DELIMITER") = m :: rest)
    (ha : m.attrs = []) :
    getDelimiter lines = Except.error PyErr.indexError := by
  unfold getDelimiter
  rw [hm]
  simp [ha, pyGet, Bind.bind, Except.bind]

/-- Witness for C10 at the concrete store `["DELIMITER"]`. -/
theorem C10_delimiter_empty_attrs_index_error_witness :
    getDelimiter [cs "DELIMITER"] = Except.error PyErr.indexError :=
  C10_delimiter_empty_attrs_index_error [cs "DELIMITER"]
    { line_num := 0, attrs := [], line_text := cs "DELIMITER" } [] (by decide) rfl

/-- Claim C1: `getLineStarted` includes a stored line `t` at index `i` iff
the first `len(K)` characters of `t` case-insensitively equal `K`; the attrs
of a match are the remainder of the line with one leading space stripped;
the result is independent of the keyword's own casing; matches come in
ascending line-index order. -/
theorem C1_getLineStarted_spec (lines : List (List Char)) (K Kv : List Char) :
    (∀ (i : Nat) (a t : List Char),
      HeaderMatch.mk i a t ∈ getLineStarted lines K ↔
        (i < lines.length ∧ t = lines.getD i [] ∧
          pyLower (t.take K.length) = pyLower K ∧
          a = stripLeadSpace (t.drop K.length))) ∧
    (pyLower Kv = pyLower K → getLineStarted lines Kv = getLineStarted lines K) ∧
    (getLineStarted lines K).Pairwise (fun m1 m2 => m1.line_num < m2.line_num) := by
  refine ⟨?_, ?_, ?_⟩
  · intro i a t
    constructor
    · intro h
      simp only [getLineStarted, List.mem_filterMap, List.mem_range] at h
      obtain ⟨j, hj, hf⟩ := h
      by_cases hc : pyLower ((lines.getD j []).take K.length) = pyLower K
      · simp only [hc, if_pos] at hf
        obtain ⟨rfl, rfl, rfl⟩ := HeaderMatch.mk.inj (Option.some.inj hf)
        exact ⟨hj, rfl, hc, rfl⟩
      · simp only [hc, if_neg, if_false] at hf
        exact absurd hf (by simp)
    · rintro ⟨hi, rfl, hc, rfl⟩
      simp only [getLineStarted, List.mem_filterMap, List.mem_range]
      refine ⟨i, hi, ?_⟩
      simp only [hc, if_pos]
  · intro h
    have hlen : Kv.length = K.length := by
      have h2 := congrArg List.length h
      simpa [pyLower] using h2
    unfold getLineStarted
    have hfun : (fun i =>
        let line := lines.getD i []
        if pyLower (line.take Kv.length) = pyLower Kv then
          some (HeaderMatch.mk i (stripLeadSpace (line.drop Kv.length)) line)
        else Option.none)
      = (fun i =>
        let line := lines.getD i []
        if pyLower (line.take K.length) = pyLower K then
          some (HeaderMatch.mk i (stripLeadSpace (line.drop K.length)) line)
        else Option.none) := by
      funext i
      rw [hlen, h]
    rw [hfun]
  · unfold getLineStarted
    refine List.Pairwise.filterMap _ ?_ (List.pairwise_lt_range lines.length)
    intro x y hxy m1 h1 m2 h2
    simp only [Option.mem_def] at h1 h2
    have hx : m1.line_num = x := by
      by_cases hc : pyLower ((lines.getD x []).take K.length) = pyLower K
      · simp only [hc, if_pos] at h1
        obtain rfl := Option.some.inj h1
        rfl
      · simp only [hc, if_neg, if_false] at h1
        exact absurd h1 (by simp)
    have hy : m2.line_num = y := by
      by_cases hc : pyLower ((lines.getD y []).take K.length) = pyLower K
      · simp only [hc, if_pos] at h2
        obtain rfl := Option.some.inj h2
        rfl
      · simp only [hc, if_neg, if_false] at h2
        exact absurd h2 (by simp)
    rw [hx, hy]
    exact hxy

/-- Witness for C1 at a concrete store and keyword: `version 650` is matched
by keyword `VERSION` at index 2, with attrs `650`. -/
theorem C1_getLineStarted_spec_witness :
    HeaderMatch.mk 2 (cs "650") (cs "version 650") ∈
      getLineStarted [cs "VERSION 300", cs "Data", cs "version 650"] (cs "VERSION") :=
  ((C1_getLineStarted_spec [cs "VERSION 300", cs "Data", cs "version 650"]
      (cs "VERSION") (cs "VERSION")).1 2 (cs "650") (cs "version 650")).mpr
    ⟨by decide, by decide, by decide, by decide⟩

/-- A successful association-list lookup returns a stored pair. -/
theorem lookup_mem {α β : Type} [BEq α] [LawfulBEq α] :
    ∀ (l : List (α × β)) (k : α) (v : β), l.lookup k = some v → (k, v) ∈ l := by
  intro l
  induction l with
  | nil => intro k v h; exact absurd h (by simp [List.lookup])
  | cons p rest ih =>
    obtain ⟨a, b⟩ := p
    intro k v h
    simp only [List.lookup] at h
    by_cases hk : (k == a) = true
    · have hka : k = a := eq_of_beq hk
      rw [hk] at h
      simp only [Option.some.injEq] at h
      subst hka
      rw [← h]
      exact List.mem_cons_self (k, b) rest
    · rw [Bool.not_eq_true] at hk
      rw [hk] at h
      exact List.mem_cons_of_mem (a, b) (ih k v h)

/-- Claim C9 counterexample: the failure raised for an unknown coordinate
system string does not carry the unmatched input — two distinct unknown
inputs produce the identical error value (the source prints the string and
raises `ValueError("Uknown coordsys")` with a constant message). -/
theorem C9_unknown_error_not_carrying_input :
    CoordSys.init (cs "foo") = CoordSys.init (cs "bar") ∧
    cs "foo" ≠ cs "bar" ∧
    (CoordSys.init (cs "foo")).isOk = false := by decide

/-- Claim C9 as amended: resolution is exact-match only — a success is
always one of the table's own entries (no normalization or fuzzy matching),
every table entry resolves to its stored epsg/name, and any string missing
from the table yields the constant-message `ValueError` (the unmatched
string itself is only printed, not attached to the error). -/
theorem C9_coordsys_exact_lookup :
    (∀ s info, CoordSys.init s = Except.ok info → (s, info) ∈ projs) ∧
    (∀ p ∈ projs, CoordSys.init p.1 = Except.ok p.2) ∧
    (∀ s, projs.lookup s = Option.none →
      CoordSys.init s = Except.error (PyErr.valueError (cs "Uknown coordsys"))) := by
  refine ⟨?_, by decide, ?_⟩
  · intro s info h
    unfold CoordSys.init at h
    cases hl : projs.lookup s with
    | none => rw [hl] at h; exact absurd h (by simp)
    | some i =>
      rw [hl] at h
      have hi : i = info := Except.ok.inj h
      rw [hi] at hl
      exact lookup_mem projs s info hl
  · intro s h
    unfold CoordSys.init
    rw [h]

/-- Witness for C9 at the first table entry. -/
theorem C9_coordsys_exact_lookup_witness :
    CoordSys.init (cs "Earth Projection 1, 104") =
      Except.ok { epsg := 4326, name := cs "WGS84 / Long/Lat" } :=
  C9_coordsys_exact_lookup.2.1
    (cs "Earth Projection 1, 104", { epsg := 4326, name := cs "WGS84 / Long/Lat" })
    (by decide)

/-- Ring lengths of a decoded region, the observable compared in C3. -/
def regionRingLens : Except PyErr Geom → List Nat
  | Except.ok (Geom.region rings _) => rings.map List.length
  | _ => []

/-- Claim C3 counterexample: on a store whose first ring's coordinate line
parses as a bare integer, `__parseRegion` (which resumes the scan right
after the previous COUNT line, not past the consumed coordinates) returns
different rings than the spec's advance-past-coordinates algorithm: the
source yields ring lengths `[1, 2]`, the spec's algorithm `[1, 3]`. -/
theorem C3_region_cursor_not_advanced :
    regionRingLens (parseRegion
      [cs "REGION 2", cs "1", cs "2", cs "3", cs "4", cs "5",
       cs "6", cs "7", cs "8", cs "9"] 0) ≠
    regionRingLens (parseRegionAdvance
      [cs "REGION 2", cs "1", cs "2", cs "3", cs "4", cs "5",
       cs "6", cs "7", cs "8", cs "9"] 0) := by decide

/-- One step of the ring-count scan over a non-integer line. -/
theorem scan_cons_none {l : List Char} {rest : List (List Char)} {i : Nat}
    (h : pyInt? l = Option.none) :
    regionScanL (l :: rest) i = regionScanL rest (i + 1) := by
  simp [regionScanL, h]

/-- The ring-count scan stops at an integer line. -/
theorem scan_cons_some {l : List Char} {rest : List (List Char)} {i : Nat} {k : Int}
    (h : pyInt? l = some k) :
    regionScanL (l :: rest) i = some (i, k) := by
  simp [regionScanL, h]

/-- Claim C3 as amended (Scenario E): for `REGION 2`, a count line `5`, five
coordinate lines none of which parses as a bare integer, a count line `3`
and three coordinate lines, the decoder returns exactly two rings holding
those five and those three coordinate lines, in order. (The cursor advances
only past each ring's count line — the scan for the next count re-reads the
previous ring's coordinate lines, which is harmless here because they do not
parse as integers.) -/
theorem C3_region_scenarioE (c1 c2 c3 c4 c5 d1 d2 d3 : List Char)
    (h1 : pyInt? c1 = Option.none) (h2 : pyInt? c2 = Option.none)
    (h3 : pyInt? c3 = Option.none) (h4 : pyInt? c4 = Option.none)
    (h5 : pyInt? c5 = Option.none) :
    parseRegion [cs "REGION 2", cs "5", c1, c2, c3, c4, c5, cs "3", d1, d2, d3] 0 =
      Except.ok (Geom.region
        [[coordLine c1, coordLine c2, coordLine c3, coordLine c4, coordLine c5],
         [coordLine d1, coordLine d2, coordLine d3]] 2) := by
  have hscan2 : regionScan [cs "REGION 2", cs "5", c1, c2, c3, c4, c5, cs "3", d1, d2, d3] 2
      = some (7, 3) := by
    show regionScanL (c1 :: c2 :: c3 :: c4 :: c5 :: cs "3" :: d1 :: d2 :: d3 :: []) 2 = some (7, 3)
    rw [scan_cons_none h1, scan_cons_none h2, scan_cons_none h3, scan_cons_none h4,
      scan_cons_none h5, scan_cons_some (show pyInt? (cs "3") = some 3 from by decide)]
  have hloop : regionLoop [cs "REGION 2", cs "5", c1, c2, c3, c4, c5, cs "3", d1, d2, d3]
      1 (some 5) 2 [[coordLine c1, coordLine c2, coordLine c3, coordLine c4, coordLine c5]]
      = Except.ok (some
        [[coordLine c1, coordLine c2, coordLine c3, coordLine c4, coordLine c5],
         [coordLine d1, coordLine d2, coordLine d3]]) := by
    simp only [regionLoop, hscan2]
    rfl
  show Except.bind (regionLoop [cs "REGION 2", cs "5", c1, c2, c3, c4, c5, cs "3", d1, d2, d3]
      1 (some 5) 2 [[coordLine c1, coordLine c2, coordLine c3, coordLine c4, coordLine c5]]) _ = _
  rw [hloop]
  rfl

/-- Witness for C3 (Scenario E) at concrete coordinate lines. -/
theorem C3_region_scenarioE_witness :
    parseRegion [cs "REGION 2", cs "5", cs "1.0 2.0", cs "1.1 2.1", cs "1.2 2.2",
      cs "1.3 2.3", cs "1.4 2.4", cs "3", cs "9.0 9.1", cs "9.2 9.3", cs "9.4 9.5"] 0 =
      Except.ok (Geom.region
        [[coordLine (cs "1.0 2.0"), coordLine (cs "1.1 2.1"), coordLine (cs "1.2 2.2"),
          coordLine (cs "1.3 2.3"), coordLine (cs "1.4 2.4")],
         [coordLine (cs "9.0 9.1"), coordLine (cs "9.2 9.3"), coordLine (cs "9.4 9.5")]] 2) :=
  C3_region_scenarioE (cs "1.0 2.0") (cs "1.1 2.1") (cs "1.2 2.2") (cs "1.3 2.3")
    (cs "1.4 2.4") (cs "9.0 9.1") (cs "9.2 9.3") (cs "9.4 9.5")
    (by decide) (by decide) (by decide) (by decide) (by decide)

/-- Bind on a successful `Except` computation. -/
theorem exceptBind_ok {ε α β : Type} (a : α) (f : α → Except ε β) :
    (Except.ok a : Except ε α) >>= f = f a := rfl

/-- Bind on a failed `Except` computation. -/
theorem exceptBind_error {ε α β : Type} (e : ε) (f : α → Except ε β) :
    (Except.error e : Except ε α) >>= f = Except.error e := rfl

/-- A successful `mapM` in `Except` preserves the list length. -/
theorem mapM_ok_length {α β : Type} (f : α → Except PyErr β) :
    ∀ (xs : List α) (ys : List β), xs.mapM f = Except.ok ys → ys.length = xs.length := by
  intro xs
  induction xs with
  | nil =>
    intro ys h
    simp only [List.mapM_nil] at h
    have : ([] : List β) = ys := Except.ok.inj h
    rw [← this]
    rfl
  | cons x rest ih =>
    intro ys h
    rw [List.mapM_cons] at h
    cases hx : f x with
    | error e => rw [hx] at h; simp [Bind.bind, Except.bind] at h
    | ok y =>
      rw [hx] at h
      simp only [Bind.bind, Except.bind] at h
      cases hr : rest.mapM f with
      | error e => rw [hr] at h; simp [Except.bind] at h
      | ok ys1 =>
        rw [hr] at h
        simp only [Except.bind, pure, Except.pure] at h
        have : y :: ys1 = ys := Except.ok.inj h
        rw [← this]
        simp [ih ys1 hr]

/-- `pyGet` succeeds exactly on in-range indices, returning the element. -/
theorem pyGet_ok {α : Type} {xs : List α} {i : Nat} {v : α}
    (h : pyGet xs i = Except.ok v) : i < xs.length ∧ ∀ d, xs.getD i d = v := by
  unfold pyGet at h
  split at h
  · rename_i hlt
    refine ⟨hlt, fun d => ?_⟩
    have hv := Except.ok.inj h
    rw [List.getD_eq_getElem?_getD, List.getElem?_eq_getElem hlt]
    simpa [List.get_eq_getElem] using hv
  · exact absurd h (by simp)

/-- The member scan of `__parseCollection` collects at most
`max (declared count) 1` entry points: the `>=` break check runs only after
a possible append, so a nonpositive declared count still lets the very first
matching line in. -/
theorem collScan_length_le (lines : List (List Char)) (c : Int) :
    ∀ (n l : Nat) (acc : List Nat),
      (collScan lines c acc l n).length ≤ max c.toNat (acc.length + 1) := by
  intro n
  induction n with
  | zero =>
    intro l acc
    simp only [collScan, List.length_reverse]
    omega
  | succ n ih =>
    intro l acc
    simp only [collScan]
    by_cases hP : (types11.any fun t => t.isPrefixOf (detab (pyLower (lines.getD l [])))) = true
    · simp only [hP, if_true]
      by_cases hbr : c ≤ (((l :: acc).length : Nat) : Int)
      · rw [if_pos hbr]
        simp only [List.length_reverse, List.length_cons]
        omega
      · rw [if_neg hbr]
        have h2 := ih (l + 1) (l :: acc)
        simp only [List.length_cons] at h2 hbr ⊢
        omega
    · simp only [Bool.not_eq_true] at hP
      simp only [hP, Bool.false_eq_true, if_false]
      by_cases hbr : c ≤ ((acc.length : Nat) : Int)
      · rw [if_pos hbr]
        simp only [List.length_reverse]
        omega
      · rw [if_neg hbr]
        have h2 := ih (l + 1) acc
        omega

/-- If binding a computation into `pure (Geom.collection ...)` succeeds with
a collection value, the computation itself succeeded with its members. -/
theorem bind_pure_collection_ok {A : Except PyErr (List Geom)} {mems : List Geom}
    (h : (A >>= fun ms => pure (Geom.collection ms)) = Except.ok (Geom.collection mems)) :
    A = Except.ok mems := by
  cases A with
  | error e => simp [exceptBind_error] at h
  | ok ms =>
    simp only [exceptBind_ok, pure, Except.pure] at h
    have h2 := Except.ok.inj h
    rw [Geom.collection.inj h2]

/-- Claim C5 counterexample: with declared member count 0 and a keyword line
right after the entry, `__parseCollection` still collects and decodes one
member — the emptiness check `len(collection_arr) >= collection_len` runs
only after the first append. So "at most c members" fails at `c = 0`. -/
theorem C5_collection_zero_count_collects_one :
    parseCollectionF [cs "COLLECTION 0", cs "point 1 2"] 2 0 =
      Except.ok (Geom.collection [Geom.point [cs "1", cs "2"]]) ∧
    declaredCount [cs "COLLECTION 0", cs "point 1 2"] 0 = some 0 :=
  ⟨rfl, by decide⟩

/-- Claim C5 as amended: a successful collection decode returns at most
`max c 1` members, where `c` is the declared member count — at most `c` when
`c ≥ 1` (even if further keyword lines follow), and at most one when
`c ≤ 0`. -/
theorem C5_collection_member_bound (lines : List (List Char)) (fuel line : Nat)
    (c : Int) (mems : List Geom)
    (hc : declaredCount lines line = some c)
    (hok : parseCollectionF lines (fuel + 1) line = Except.ok (Geom.collection mems)) :
    (mems.length : Int) ≤ max c 1 := by
  rw [parseCollectionF] at hok
  cases ht : entryTokens lines line with
  | error e => rw [ht] at hok; simp [exceptBind_error] at hok
  | ok toks =>
    rw [ht] at hok
    simp only [exceptBind_ok] at hok
    cases ht1 : pyGet toks 1 with
    | error e => rw [ht1] at hok; simp [exceptBind_error] at hok
    | ok t1 =>
      rw [ht1] at hok
      simp only [exceptBind_ok] at hok
      cases hi : pyIntE t1 with
      | error e => rw [hi] at hok; simp [exceptBind_error] at hok
      | ok clen =>
        rw [hi] at hok
        simp only [exceptBind_ok] at hok
        -- link the declared count to `clen`
        have htoks : toks = pySplit [' '] (detab (pyLower (lines.getD line []))) := by
          unfold entryTokens at ht
          cases hg : pyGet lines line with
          | error e => rw [hg] at ht; simp [Bind.bind, Except.bind] at ht
          | ok l0 =>
            rw [hg] at ht
            simp only [Bind.bind, Except.bind, pure, Except.pure] at ht
            have hl0 := (pyGet_ok hg).2 []
            rw [hl0]
            exact (Except.ok.inj ht).symm
        have ht1v : t1 = toks.getD 1 [] := ((pyGet_ok ht1).2 []).symm
        have hclen : clen = c := by
          unfold declaredCount at hc
          rw [← htoks, ← ht1v] at hc
          unfold pyIntE at hi
          cases hpi : pyInt? t1 with
          | none => rw [hpi] at hi; exact absurd hi (by simp)
          | some v =>
            rw [hpi] at hi
            rw [hpi] at hc
            have h1 := Except.ok.inj hi
            have h2 := Option.some.inj hc
            rw [← h1, h2]
        subst hclen
        have hA := bind_pure_collection_ok hok
        have hlen := mapM_ok_length _ _ _ hA
        have hbound := collScan_length_le lines clen
          (lines.length - (line + 1)) (line + 1) []
        simp only [List.length_nil] at hbound
        omega

/-- Witness for C5: a collection declaring 2 members among 3 keyword lines
decodes exactly 2 members, within the bound. -/
theorem C5_collection_member_bound_witness :
    ((([Geom.point [cs "1", cs "2"], Geom.point [cs "3", cs "4"]] : List Geom).length : Int)
      ≤ max 2 1) :=
  C5_collection_member_bound
    [cs "COLLECTION 2", cs "point 1 2", cs "point 3 4", cs "point 5 6"] 3 0 2
    [Geom.point [cs "1", cs "2"], Geom.point [cs "3", cs "4"]] (by decide) rfl

/-- Claim C6 counterexample: a `None` line right after a Collection entry
declaring one member is NOT collected or decoded — the member scan's keyword
tuple (line 311) lacks "none", so the decode returns zero members. -/
theorem C6_none_line_not_collected :
    parseCollectionF [cs "COLLECTION 1", cs "None"] 2 0 =
      Except.ok (Geom.collection []) := rfl

/-- Every index collected by the member scan was already in the accumulator
or points at a line starting with one of the 11 scanned keywords. -/
theorem collScan_mem (lines : List (List Char)) (c : Int) :
    ∀ (n l : Nat) (acc : List Nat) (i : Nat), i ∈ collScan lines c acc l n →
      i ∈ acc ∨ (types11.any fun t => t.isPrefixOf (detab (pyLower (lines.getD i [])))) = true := by
  intro n
  induction n with
  | zero =>
    intro l acc i hi
    simp only [collScan, List.mem_reverse] at hi
    exact Or.inl hi
  | succ n ih =>
    intro l acc i hi
    simp only [collScan] at hi
    by_cases hP : (types11.any fun t => t.isPrefixOf (detab (pyLower (lines.getD l [])))) = true
    · simp only [hP, if_true] at hi
      by_cases hbr : c ≤ (((l :: acc).length : Nat) : Int)
      · rw [if_pos hbr] at hi
        rw [List.mem_reverse] at hi
        rcases List.mem_cons.mp hi with h | h
        · subst h
          exact Or.inr hP
        · exact Or.inl h
      · rw [if_neg hbr] at hi
        rcases ih (l + 1) (l :: acc) i hi with h | h
        · rcases List.mem_cons.mp h with h2 | h2
          · subst h2
            exact Or.inr hP
          · exact Or.inl h2
        · exact Or.inr h
    · simp only [Bool.not_eq_true] at hP
      simp only [hP, Bool.false_eq_true, if_false] at hi
      by_cases hbr : c ≤ ((acc.length : Nat) : Int)
      · rw [if_pos hbr] at hi
        rw [List.mem_reverse] at hi
        exact Or.inl hi
      · rw [if_neg hbr] at hi
        exact ih (l + 1) acc i hi

/-- Two prefixes of the same list share their first character. -/
theorem prefix_head {a b : Char} {t u s : List Char}
    (h1 : List.isPrefixOf (a :: t) s = true) (h2 : List.isPrefixOf (b :: u) s = true) :
    a = b := by
  cases s with
  | nil => simp [List.isPrefixOf] at h1
  | cons c s2 =>
    simp only [List.isPrefixOf, Bool.and_eq_true, beq_iff_eq] at h1 h2
    rw [h1.1, h2.1]

/-- Claim C6 as amended: the member scan of `__parseCollection` recognises
only the 11 keywords `point, line, pline, region, arc, text, rect,
roundrect, ellipse, multipoint, collection` — unlike the top-level scanner
it excludes "none", so no collected member index points at a line whose
lowercase tab-stripped text starts with "none". -/
theorem C6_collScan_excludes_none (lines : List (List Char)) (c : Int)
    (n l i : Nat) (hi : i ∈ collScan lines c [] l n) :
    ¬ ((cs "none").isPrefixOf (detab (pyLower (lines.getD i []))) = true) := by
  intro hnone
  rcases collScan_mem lines c n l [] i hi with h | h
  · simp at h
  · rw [List.any_eq_true] at h
    obtain ⟨t, ht, hpre⟩ := h
    simp only [types11, List.mem_cons, List.not_mem_nil, or_false] at ht
    rcases ht with rfl | rfl | rfl | rfl | rfl | rfl | rfl | rfl | rfl | rfl | rfl
    all_goals exact absurd (prefix_head hpre hnone) (by decide)

/-- Witness for C6: in a store with a `None` line amid collected members,
index 1 (a `point` line) is collected and indeed does not start with
"none". -/
theorem C6_collScan_excludes_none_witness :
    ¬ ((cs "none").isPrefixOf (detab (pyLower
      (([cs "COLLECTION 2", cs "point 1 2", cs "None", cs "line 0 0 1 1"]).getD 1 []))) = true) :=
  C6_collScan_excludes_none
    [cs "COLLECTION 2", cs "point 1 2", cs "None", cs "line 0 0 1 1"] 2 3 1 1 (by decide)

/-- Split on runs of spaces and tabs, dropping empty tokens — the standard
reading of "split on whitespace". -/
def wsSplitAux : List Char → List Char → List (List Char)
  | [], cur => if cur = [] then [] else [cur.reverse]
  | c :: rest, cur =>
    if c = ' ' ∨ c = '\t' then
      if cur = [] then wsSplitAux rest [] else cur.reverse :: wsSplitAux rest []
    else wsSplitAux rest (c :: cur)

def wsSplit (s : List Char) : List (List Char) := wsSplitAux s []

/-- Modelled from the spec wording of `columns()` (§4.3, claim C7): each of
the declared lines is split on whitespace after stripping one leading
tab/space; the first token is the column name and the remaining tokens
joined with no separator are the type string. -/
def colLineSpec (line : List Char) : Column :=
  let line1 :=
    match line with
    | c :: rest => if c = '\t' ∨ c = ' ' then rest else line
    | [] => []
  let toks := wsSplit line1
  { name := toks.headD [], type := (toks.drop 1).flatten }

/-- Claim C7 counterexample: on the COLUMNS line `id<TAB>CHAR(5)` the source
deletes the interior tab before splitting on single spaces, yielding name
`idCHAR(5)` and an empty type, while the claimed split-on-whitespace
algorithm yields name `id` and type `CHAR(5)`. -/
theorem C7_columns_tab_divergence :
    getColumns [cs "COLUMNS 1", cs "id\tCHAR(5)"] =
      Except.ok [{ name := cs "idCHAR(5)", type := [] }] ∧
    colLineSpec (cs "id\tCHAR(5)") = { name := cs "id", type := cs "CHAR(5)" } ∧
    getColumns [cs "COLUMNS 1", cs "id\tCHAR(5)"] ≠
      Except.ok [colLineSpec (cs "id\tCHAR(5)")] := by
  refine ⟨by decide, by decide, by decide⟩

/-- `pyGet` only ever fails with `IndexError`. -/
theorem pyGet_error {α : Type} {xs : List α} {i : Nat} {e : PyErr}
    (h : pyGet xs i = Except.error e) : e = PyErr.indexError := by
  unfold pyGet at h
  split at h
  · exact absurd h (by simp)
  · exact (Except.error.inj h).symm

/-- A member of `getLineStarted`'s result indexes into the store. -/
theorem getLineStarted_lt {lines : List (List Char)} {s : List Char} {m : HeaderMatch}
    (h : m ∈ getLineStarted lines s) : m.line_num < lines.length := by
  simp only [getLineStarted, List.mem_filterMap, List.mem_range] at h
  obtain ⟨j, hj, hf⟩ := h
  split at hf
  · have h2 := Option.some.inj hf
    rw [← h2]
    exact hj
  · exact absurd hf (by simp)

/-- The only failure `colLine` can produce is an `IndexError` (from
subscripting the empty line or the empty token list). -/
theorem colLine_error_index {line : List Char} {e : PyErr}
    (h : colLine line = Except.error e) : e = PyErr.indexError := by
  unfold colLine at h
  simp only [Bind.bind, Except.bind, pure, Except.pure] at h
  split at h
  · rename_i e0 heq
    rw [← Except.error.inj h]
    exact pyGet_error heq
  · rename_i c0 heq
    split at h
    · rename_i e1 heq1
      rw [← Except.error.inj h]
      exact pyGet_error heq1
    · rename_i p0 heq1
      split at h
      · rename_i e2 heq2
        rw [← Except.error.inj h]
        exact pyGet_error heq2
      · rename_i nm heq2
        exact absurd h (by simp)

/-- When the declared range stays inside the store, the column loop
processes exactly the `k` lines following the header, in order. -/
theorem colLoop_eq_mapM (lines : List (List Char)) :
    ∀ (k i : Nat), i + k ≤ lines.length →
      colLoop lines i k = ((lines.drop i).take k).mapM colLine := by
  intro k
  induction k with
  | zero =>
    intro i h
    rw [List.take_zero]
    rfl
  | succ k ih =>
    intro i h
    have hi : i < lines.length := by omega
    rw [colLoop, List.drop_eq_getElem_cons hi, List.take_succ_cons, List.mapM_cons]
    have hg : pyGet lines i = Except.ok lines[i] := by
      unfold pyGet
      rw [dif_pos hi]
      simp [List.get_eq_getElem]
    rw [hg]
    simp only [exceptBind_ok]
    rw [ih (i + 1) (by omega)]

/-- When the declared range overruns the store, the column loop fails with
`IndexError` (either at a line fetch or inside `colLine`). -/
theorem colLoop_overrun (lines : List (List Char)) :
    ∀ (k i : Nat), lines.length < i + (k + 1) →
      colLoop lines i (k + 1) = Except.error PyErr.indexError := by
  intro k
  induction k with
  | zero =>
    intro i h
    have hni : ¬ i < lines.length := by omega
    have hg : pyGet lines i = Except.error PyErr.indexError := by
      unfold pyGet
      rw [dif_neg hni]
    rw [colLoop, hg, exceptBind_error]
  | succ k ih =>
    intro i h
    rw [colLoop]
    by_cases hi : i < lines.length
    · have hg : pyGet lines i = Except.ok (lines.get ⟨i, hi⟩) := by
        unfold pyGet
        rw [dif_pos hi]
      rw [hg]
      simp only [exceptBind_ok]
      cases hc : colLine (lines.get ⟨i, hi⟩) with
      | error e =>
        rw [exceptBind_error, colLine_error_index hc]
      | ok col =>
        simp only [exceptBind_ok]
        rw [ih (i + 1) (by omega), exceptBind_error]
    · have hg : pyGet lines i = Except.error PyErr.indexError := by
        unfold pyGet
        rw [dif_neg hi]
      rw [hg, exceptBind_error]

/-- Claim C7 as amended: when the first COLUMNS match declares count `n`,
`getColumns` processes exactly the `n` following lines with the source's
per-line transform (`colLine`: strip one leading tab/space, delete all tabs,
split on single spaces, drop one leading empty token, first token the name,
remaining tokens joined as the type); when fewer than `n` lines remain it
fails with an index-out-of-range error (not a separate MalformedSchema). -/
theorem C7_columns_extraction (lines : List (List Char)) (m : HeaderMatch)
    (rest : List HeaderMatch) (n : Int)
    (hm : getLineStarted lines (cs "COLUMNS") = m :: rest)
    (hn : pyInt? m.attrs = some n) :
    (m.line_num + 1 + n.toNat ≤ lines.length →
      getColumns lines = ((lines.drop (m.line_num + 1)).take n.toNat).mapM colLine) ∧
    (lines.length < m.line_num + 1 + n.toNat →
      getColumns lines = Except.error PyErr.indexError) := by
  have hg : getColumns lines = colLoop lines (m.line_num + 1) n.toNat := by
    unfold getColumns
    rw [hm]
    have hie : pyIntE m.attrs = Except.ok n := by
      unfold pyIntE
      rw [hn]
    show pyIntE m.attrs >>= (fun nn => colLoop lines (m.line_num + 1) nn.toNat) =
      colLoop lines (m.line_num + 1) n.toNat
    rw [hie]
    simp only [exceptBind_ok]
  constructor
  · intro hle
    rw [hg]
    exact colLoop_eq_mapM lines n.toNat (m.line_num + 1) (by omega)
  · intro hlt
    have hlnum : m.line_num < lines.length := by
      refine getLineStarted_lt (s := cs "COLUMNS") ?_
      rw [hm]
      exact List.mem_cons_self m rest
    rw [hg]
    cases hk : n.toNat with
    | zero => omega
    | succ k =>
      exact colLoop_overrun lines k (m.line_num + 1) (by omega)

/-- Witness for C7 (Scenario B): `COLUMNS 2` followed by two indented column
lines extracts both name/type pairs. -/
theorem C7_columns_extraction_witness :
    getColumns [cs "COLUMNS 2", cs "  id CHAR(256)", cs "  help CHAR(1000)"] =
      Except.ok [{ name := cs "id", type := cs "CHAR(256)" },
                 { name := cs "help", type := cs "CHAR(1000)" }] :=
  Eq.trans
    ((C7_columns_extraction [cs "COLUMNS 2", cs "  id CHAR(256)", cs "  help CHAR(1000)"]
        { line_num := 0, attrs := cs "2", line_text := cs "COLUMNS 2" } [] 2
        (by decide) (by decide)).1 (by decide))
    (by decide)

/-- Claim C8 counterexample: with delimiter `,` and MID line `a,b,`, the
source strips only a trailing TAB — never the delimiter — so the split has
length 3 against 2 columns and strict mode raises, while the claimed
strip-trailing-delimiter algorithm succeeds with two pairs. -/
theorem C8_mid_trailing_tab_not_delimiter :
    Mid.data [cs "a,b,"] [cs "c1", cs "c2"] (cs ",") false =
      Except.error (PyErr.valueError (cs "columns length is not equal to mid file data")) ∧
    midDataClaim [cs "a,b,"] [cs "c1", cs "c2"] (cs ",") =
      Except.ok { count := 1, info := [[{ name := cs "c1", value := cs "a" },
                                        { name := cs "c2", value := cs "b" }]] } ∧
    Mid.data [cs "a,b,"] [cs "c1", cs "c2"] (cs ",") false ≠
      midDataClaim [cs "a,b,"] [cs "c1", cs "c2"] (cs ",") := by
  refine ⟨by decide, by decide, by decide⟩

/-- Binding into a `pure` continuation is `Except.map`. -/
theorem exceptBind_pure_map {ε α β : Type} (A : Except ε α) (f : α → β) :
    (A >>= fun x => pure (f x)) = A.map f := by
  cases A <;> rfl

/-- The positional pairing loop of `Mid.data` (index `i % len(els)` over
`range(len(els))`) is, when the split length equals the column count, the
positional zip of the two lists. -/
theorem pairLoop_eq_zipWith (colKeys els : List (List Char))
    (heq : colKeys.length = els.length) :
    ∀ (n i : Nat), i + n = els.length →
      pairLoop colKeys els i n =
        Except.ok (List.zipWith (fun a v => { name := a, value := v })
          (colKeys.drop i) (els.drop i)) := by
  intro n
  induction n with
  | zero =>
    intro i h
    have h1 : els.drop i = [] := List.drop_eq_nil_of_le (by omega)
    have h2 : colKeys.drop i = [] := List.drop_eq_nil_of_le (by omega)
    rw [h1, h2]
    rfl
  | succ n ih =>
    intro i h
    have hi : i < els.length := by omega
    have hik : i < colKeys.length := by omega
    rw [pairLoop]
    have hmod : i % els.length = i := Nat.mod_eq_of_lt hi
    have hg : pyGet colKeys (i % els.length) = Except.ok colKeys[i] := by
      unfold pyGet
      rw [hmod, dif_pos hik]
      simp [List.get_eq_getElem]
    rw [hg]
    simp only [exceptBind_ok]
    rw [ih (i + 1) (by omega)]
    simp only [exceptBind_ok]
    rw [List.drop_eq_getElem_cons hik, List.drop_eq_getElem_cons hi,
      List.zipWith_cons_cons]
    rw [List.getD_eq_getElem?_getD, List.getElem?_eq_getElem hi]
    rfl

/-- One non-blank MID line in strict mode: the source's loop equals the
amended description `strictLineSpec`. -/
theorem midLineProc_strict (colKeys : List (List Char)) (delim : List Char)
    (line : List Char) :
    midLineProc colKeys delim false line = strictLineSpec colKeys delim line := by
  unfold midLineProc strictLineSpec
  by_cases hd : delim = []
  · rw [if_pos hd, if_pos hd]
  · rw [if_neg hd, if_neg hd]
    by_cases hlen : (pySplit delim (if line.getLast? = some '\t' then line.dropLast else line)).length = colKeys.length
    · have hcond : ¬((pySplit delim (if line.getLast? = some '\t' then line.dropLast else line)).length ≠ colKeys.length ∧ false = false) := by
        simp [hlen]
      rw [if_neg hcond, if_pos hlen]
      exact pairLoop_eq_zipWith colKeys _ hlen.symm _ 0 (by omega)
    · have hcond : ((pySplit delim (if line.getLast? = some '\t' then line.dropLast else line)).length ≠ colKeys.length ∧ false = false) := ⟨hlen, rfl⟩
      rw [if_pos hcond, if_neg hlen]

/-- The line loop of `Mid.data` in strict mode is a single stable pass over
the non-blank lines. -/
theorem midLoop_eq_filter_mapM (colKeys : List (List Char)) (delim : List Char) :
    ∀ (ls : List (List Char)),
      midLoop colKeys delim false ls =
        (ls.filter (fun l => !l.isEmpty)).mapM (strictLineSpec colKeys delim) := by
  intro ls
  induction ls with
  | nil => rfl
  | cons line rest ih =>
    rw [midLoop]
    by_cases hl : line = []
    · rw [if_pos hl]
      have hf : (line :: rest).filter (fun l => !l.isEmpty) =
          rest.filter (fun l => !l.isEmpty) := by
        rw [List.filter_cons]
        simp [hl]
      rw [hf]
      exact ih
    · rw [if_neg hl]
      have hf : (line :: rest).filter (fun l => !l.isEmpty) =
          line :: rest.filter (fun l => !l.isEmpty) := by
        rw [List.filter_cons]
        simp [List.isEmpty_iff, hl]
      rw [hf, List.mapM_cons, midLineProc_strict, ih]

/-- Claim C8 as amended: in strict mode `Mid.data` processes exactly the
non-blank MID lines; each is stripped of one trailing TAB character (the
literal `'\t'`, regardless of the resolved delimiter), split on the
delimiter, rejected with the length-mismatch `ValueError` when the split
length differs from the column count, and otherwise paired positionally —
split position `i` with column key `i`. -/
theorem C8_mid_strict_join (midLines colKeys : List (List Char)) (delim : List Char) :
    Mid.data midLines colKeys delim false =
      ((midLines.filter (fun l => !l.isEmpty)).mapM (strictLineSpec colKeys delim)).map
        (fun infos => { count := infos.length, info := infos }) := by
  unfold Mid.data
  rw [midLoop_eq_filter_mapM]
  exact exceptBind_pure_map _ _

end Pymif
